import Mathlib

/-!
Verification model of the `package-installer` launcher (`src/main.rs`).

The launcher is a resolution-and-provisioning pipeline: it decides from the
invocation name whether to delegate, locates a runnable copy of the CLI
(project-local install, per-user cache, or on-demand download from GitHub),
optionally installs its Node dependencies, then spawns `node` on the resolved
entry point and forwards the child's exit status.

The model is a shallow embedding.  Filesystem paths are lists of components
(`[] ` is the root `/`); the filesystem is the list of existing paths; the
outcomes of external effects (HTTP requests, archive unpacking, package-manager
and `node` spawns) are oracle fields of a `World` record, and the functions of
`main.rs` are translated as explicit state-passing functions on `World`.
`println!` output is tracked as a list of message tags, one per message group
of the source.  Network activity is counted in `World.netCalls`: the only two
HTTP requests in the program are the two `client.get` calls in `download_cli`.
-/

namespace PkgInstaller

abbrev Path := List String

/-- Componentwise list prefix test, used both for substring search on
characters and for "is under this directory" tests on paths. -/
def leadsWith {α : Type} [DecidableEq α] : List α → List α → Bool
  | [], _ => true
  | _ :: _, [] => false
  | a :: as, b :: bs => decide (a = b) && leadsWith as bs

/-- Contiguous-sublist test: does `pat` occur as a run inside the list?
Models Rust `str::contains` on the character sequence. -/
def hasRun {α : Type} [DecidableEq α] (pat : List α) : List α → Bool
  | [] => leadsWith pat []
  | a :: as => leadsWith pat (a :: as) || hasRun pat as

/-- Rust `str::contains`: `s.contains(pat)` as substring containment. -/
def strContains (s pat : String) : Bool := hasRun pat.toList s.toList

/-- `main.rs` line 18: delegation triggers when the binary name (argv[0])
contains `"pi"` as a substring, or when `args.len() > 1 && args[1] == "pi"`.
`name` is argv[0]; `rest` is the remaining arguments. -/
def should_run_cli (name : String) (rest : List String) : Bool :=
  strContains name "pi" ||
    (match rest with
     | [] => false
     | a1 :: _ => a1 == "pi")

/-- `main.rs` lines 23-27: the forwarded argument vector.  If the binary name
contains `"pi"` only argv[0] is stripped (`skip(1)`); otherwise argv[0] and the
`"pi"` trigger token are stripped (`skip(2)`). -/
def cli_args (name : String) (rest : List String) : List String :=
  if strContains name "pi" then rest else rest.drop 1

/-- Last component of a path (`none` for the root). -/
def lastComp : Path → Option String
  | [] => none
  | [a] => some a
  | _ :: b :: bs => lastComp (b :: bs)

/-- Rust `Path::parent`: the root has no parent, otherwise drop the last
component. -/
def pathParent : Path → Option Path
  | [] => none
  | p :: ps => some ((p :: ps).dropLast)

/-- `LOCAL_CLI_DIR` (= `node_modules/@0xshariq/package-installer`) joined with
`dist/index.js`, the first relative candidate of `check_local_installation`. -/
def relA : Path := ["node_modules", "@0xshariq", "package-installer", "dist", "index.js"]

/-- The legacy alias candidate `node_modules/package-installer-cli/dist/index.js`. -/
def relB : Path := ["node_modules", "package-installer-cli", "dist", "index.js"]

/-- The two relative paths retried at each level of the parent walk
(`main.rs` lines 123-126). -/
def parentWalkPaths : List Path := [relA, relB]

/-- The parent-directory walk of `check_local_installation` (lines 121-138):
at each step check the two relative candidates under the current directory,
then move to the parent; the Rust `for _ in 0..5` loop is the fuel argument.
The loop `break`s when the directory has no parent. -/
def walkLoop (ex : Path → Bool) : Nat → Path → Option Path
  | 0, _ => none
  | Nat.succ n, d =>
    match parentWalkPaths.find? (fun rel => ex (d ++ rel)) with
    | some rel => some (d ++ rel)
    | none =>
      match pathParent d with
      | some par => walkLoop ex n par
      | none => none

/-- `check_local_installation` (lines 104-141).  `ex` is the filesystem
existence oracle, `cwd` the current working directory.  The first two entries
of `local_paths` coincide in the source (joining `LOCAL_CLI_DIR` equals the
explicit three-segment join); they are kept as written. -/
def check_local_installation (ex : Path → Bool) (cwd : Path) : Option Path :=
  match (([cwd ++ relA, cwd ++ relA, cwd ++ relB] : List Path)).find? ex with
  | some p => some p
  | none => walkLoop ex 5 cwd

/-- `detect_package_manager` (lines 296-314).  Each early `return` of the
source becomes an `if`-chain arm: pnpm if its lockfile exists and `pnpm
--version` could be spawned, else yarn likewise, else npm with no availability
probe.  `ex` is the existence oracle on the cache root's contents; `pnpmOk`
and `yarnOk` say whether `Command::new(..).arg("--version").output()` is `Ok`. -/
def detect_package_manager (ex : Path → Bool) (pnpmOk yarnOk : Bool) (cacheDir : Path) : String :=
  if ex (cacheDir ++ ["pnpm-lock.yaml"]) && pnpmOk then "pnpm"
  else if ex (cacheDir ++ ["yarn.lock"]) && yarnOk then "yarn"
  else "npm"

/-- Tags for the `println!` message groups of the source; the model records
which groups print, not their exact text. -/
inductive Msg where
  | usingLocal
  | readyToUse
  | autoInstallFailed
  | usingCachedCli
  | downloadingFromGitHub
  | downloadedOk
  | installingDeps
  | depsInstalled
  | installFailed
  | manualInstructions
  | execFailed
  | usageHint
deriving DecidableEq

/-- The state threaded through the launcher, plus oracles for the outcomes of
the external effects the program invokes:

* `fs` — the set of existing filesystem paths (`path.exists()` queries it);
* `cwd` — `env::current_dir()`; `cacheBase` — `dirs::cache_dir()` (assumed
  `Some`, as the model studies runs past that check);
* `netCalls` — how many HTTP requests have been issued;
* `netReleaseOk` / `tarballUrlPresent` / `netTarballOk` — whether the release
  metadata request succeeds with a `tarball_url` field and whether the tarball
  request succeeds;
* `unpackOk` — whether gunzip + `archive.unpack` succeeds;
* `archiveTop` / `archiveFiles` — the single top-level directory the archive
  unpacks to and the file paths inside it (GitHub tarballs wrap everything in
  one directory; `none` models an archive with no top-level directory);
* `pnpmAvailable` / `yarnAvailable` / `npmAvailable` — whether spawning that
  package-manager binary succeeds (both for `--version` probes and for
  `install` runs);
* `installSucceeds` — whether the spawned install command exits 0;
* `nodeSpawnOk` / `childStatus` — whether spawning `node` succeeds, and the
  child's `status.code()` (`none` models termination by signal). -/
structure World where
  fs : List Path
  cwd : Path
  cacheBase : Path
  netCalls : Nat
  netReleaseOk : Bool
  tarballUrlPresent : Bool
  netTarballOk : Bool
  unpackOk : Bool
  archiveTop : Option String
  archiveFiles : List Path
  pnpmAvailable : Bool
  yarnAvailable : Bool
  npmAvailable : Bool
  installSucceeds : Bool
  nodeSpawnOk : Bool
  childStatus : Option Nat
  log : List Msg

/-- `path.exists()` against the modelled filesystem. -/
def wExists (w : World) (p : Path) : Bool := decide (p ∈ w.fs)

/-- Whether `Command::new(pm)` can be spawned, for the three manager names
`detect_package_manager` can return. -/
def managerAvailable (w : World) (pm : String) : Bool :=
  if pm == "pnpm" then w.pnpmAvailable
  else if pm == "yarn" then w.yarnAvailable
  else if pm == "npm" then w.npmAvailable
  else false

/-- `CACHE_DIR_NAME` appended to the platform cache root: `get_cache_dir`'s
result path (lines 143-152). -/
def cacheDirOf (w : World) : Path := w.cacheBase ++ [".package-installer-cli"]

/-- The fixed cache entry point `<cache>/dist/index.js` (line 69). -/
def cliEntry (cacheDir : Path) : Path := cacheDir ++ ["dist", "index.js"]

/-- `dependencies_installed` (lines 316-319): `node_modules` exists under the
cache root (the `is_dir` refinement is collapsed into existence). -/
def dependencies_installed (w : World) (cacheDir : Path) : Bool :=
  wExists w (cacheDir ++ ["node_modules"])

/-- `fs::remove_dir_all`: delete a path and everything below it. -/
def removeSubtree (fs : List Path) (root : Path) : List Path :=
  fs.filter (fun p => !(leadsWith root p))

/-- `install_dependencies` (lines 240-294).  Returns whether it returned `Ok`
together with the updated world.  The `Err` on a missing `package.json` prints
no instructions; the "unsupported package manager" arm of the source `match`
is unreachable because `detect_package_manager` only returns the three known
names.  A successful install is modelled with the external effect of the
manager: `node_modules` now exists under the cache root. -/
def install_dependencies (w : World) (cacheDir : Path) : Bool × World :=
  if !(wExists w (cacheDir ++ ["package.json"])) then
    (false, w)
  else
    let pm := detect_package_manager (wExists w) w.pnpmAvailable w.yarnAvailable cacheDir
    if managerAvailable w pm then
      if w.installSucceeds then
        (true, {w with fs := (cacheDir ++ ["node_modules"]) :: w.fs,
                       log := w.log ++ [Msg.installingDeps, Msg.depsInstalled]})
      else
        (false, {w with
          log := w.log ++ [Msg.installingDeps, Msg.installFailed, Msg.manualInstructions]})
    else
      (false, {w with
        log := w.log ++ [Msg.installingDeps, Msg.installFailed, Msg.manualInstructions]})

/-- `download_cli` (lines 154-224).  Returns whether it returned `Ok` together
with the updated world.  Steps, in source order: release-metadata request,
status check, `tarball_url` extraction, tarball request, status check, stale
`temp/` removal plus re-creation, unpack into `temp/`, locating the single
top-level directory, `copy_dir_all` of that directory's contents into the
cache root, `install_dependencies` (whose failure propagates through `?`
before the cleanup line), and finally `remove_dir_all(temp)`. -/
def download_cli (w : World) (cacheDir : Path) : Bool × World :=
  let w1 := {w with netCalls := w.netCalls + 1}
  if !w.netReleaseOk then (false, w1)
  else if !w.tarballUrlPresent then (false, w1)
  else
    let w2 := {w1 with netCalls := w1.netCalls + 1,
                       log := w1.log ++ [Msg.downloadingFromGitHub]}
    if !w.netTarballOk then (false, w2)
    else
      let temp := cacheDir ++ ["temp"]
      let w3 := {w2 with fs := temp :: removeSubtree w2.fs temp}
      if !w.unpackOk then (false, w3)
      else
        match w.archiveTop with
        | none => (false, w3)
        | some top =>
          let w4 := {w3 with fs :=
            (temp ++ [top]) :: (w.archiveFiles.map (fun f => temp ++ [top] ++ f)) ++ w3.fs}
          let w5 := {w4 with fs := (w.archiveFiles.map (fun f => cacheDir ++ f)) ++ w4.fs}
          match install_dependencies w5 cacheDir with
          | (true, w6) => (true, {w6 with fs := removeSubtree w6.fs temp})
          | (false, w6) => (false, w6)

/-- `ensure_cli_available` (lines 60-102).  `none` models the `Err` results
("download failed" or "Failed to find CLI after download"); `some p` the
resolved candidate path.  `get_cache_dir`'s `create_dir_all` is modelled by
adding the cache root path when absent. -/
def ensure_cli_available (w : World) : Option Path × World :=
  match check_local_installation (wExists w) w.cwd with
  | some p => (some p, {w with log := w.log ++ [Msg.usingLocal]})
  | none =>
    let cacheDir := cacheDirOf w
    let w1 := if wExists w cacheDir then w else {w with fs := cacheDir :: w.fs}
    let cliPath := cliEntry cacheDir
    if wExists w1 cliPath then
      if !(dependencies_installed w1 cacheDir) then
        match install_dependencies w1 cacheDir with
        | (true, w2) => (some cliPath, {w2 with log := w2.log ++ [Msg.readyToUse]})
        | (false, w2) => (some cliPath, {w2 with log := w2.log ++ [Msg.autoInstallFailed]})
      else
        (some cliPath, {w1 with log := w1.log ++ [Msg.usingCachedCli]})
    else
      match download_cli w1 cacheDir with
      | (false, w2) => (none, w2)
      | (true, w2) =>
        if wExists w2 cliPath then (some cliPath, {w2 with log := w2.log ++ [Msg.downloadedOk]})
        else (none, w2)

/-- The terminal outcome of `main`:

* `usage` — no delegation trigger matched; usage hint printed, `exit(1)`;
* `panicked` — `ensure_cli_available` returned `Err` and
  `.expect("Failed to download or find CLI")` panicked (a Rust panic in `main`
  terminates the process with status 101 and a panic message, not a
  remediation menu);
* `ranChild script args code` — `node script args` ran;
  `exit(status.code().unwrap_or(1))`;
* `spawnFailed` — spawning `node` failed; remediation printed, `exit(1)`. -/
inductive Outcome where
  | usage
  | panicked
  | ranChild (script : Path) (args : List String) (code : Nat)
  | spawnFailed
deriving DecidableEq

/-- The process exit status each outcome produces.  `std::process::exit` takes
an `i32`, of which the operating system reports the low 8 bits. -/
def exitCode : Outcome → Nat
  | .usage => 1
  | .panicked => 101
  | .ranChild _ _ c => c % 256
  | .spawnFailed => 1

/-- `main` (lines 13-58): route the invocation, resolve the CLI, delegate. -/
def run_main (w : World) (name : String) (rest : List String) : Outcome × World :=
  if should_run_cli name rest then
    let r := ensure_cli_available w
    match r.1 with
    | some cliPath =>
      if r.2.nodeSpawnOk then
        (Outcome.ranChild cliPath (cli_args name rest) (r.2.childStatus.getD 1), r.2)
      else
        (Outcome.spawnFailed, {r.2 with log := r.2.log ++ [Msg.execFailed]})
    | none => (Outcome.panicked, r.2)
  else
    (Outcome.usage, {w with log := w.log ++ [Msg.usageHint]})

lemma leadsWith_refl {α : Type} [DecidableEq α] (l : List α) : leadsWith l l = true := by
  induction l with
  | nil => rfl
  | cons a as ih => simp [leadsWith, ih]

lemma lastComp_append (d : Path) (a : String) (as : Path) :
    lastComp (d ++ a :: as) = lastComp (a :: as) := by
  induction d with
  | nil => rfl
  | cons x xs ih =>
    cases xs with
    | nil => rfl
    | cons y ys => exact ih

lemma lastComp_relA_append (d : Path) : lastComp (d ++ relA) = some "index.js" := by
  rw [show relA = "node_modules" :: ["@0xshariq", "package-installer", "dist", "index.js"]
    from rfl, lastComp_append]
  rfl

lemma lastComp_relB_append (d : Path) : lastComp (d ++ relB) = some "index.js" := by
  rw [show relB = "node_modules" :: ["package-installer-cli", "dist", "index.js"] from rfl,
    lastComp_append]
  rfl

lemma walkLoop_congr (ex1 ex2 : Path → Bool)
    (h : ∀ p, lastComp p = some "index.js" → ex1 p = ex2 p) :
    ∀ (n : Nat) (d : Path), walkLoop ex1 n d = walkLoop ex2 n d := by
  intro n
  induction n with
  | zero => intro d; rfl
  | succ k ih =>
    intro d
    have hA : ex1 (d ++ relA) = ex2 (d ++ relA) := h _ (lastComp_relA_append d)
    have hB : ex1 (d ++ relB) = ex2 (d ++ relB) := h _ (lastComp_relB_append d)
    simp only [walkLoop, parentWalkPaths, List.find?, hA, hB]
    cases ex2 (d ++ relA) <;> cases ex2 (d ++ relB) <;> simp
    cases pathParent d <;> simp [ih]

lemma check_local_congr (ex1 ex2 : Path → Bool)
    (h : ∀ p, lastComp p = some "index.js" → ex1 p = ex2 p) (cwd : Path) :
    check_local_installation ex1 cwd = check_local_installation ex2 cwd := by
  have hA : ex1 (cwd ++ relA) = ex2 (cwd ++ relA) := h _ (lastComp_relA_append cwd)
  have hB : ex1 (cwd ++ relB) = ex2 (cwd ++ relB) := h _ (lastComp_relB_append cwd)
  simp only [check_local_installation, List.find?, hA, hB]
  cases ex2 (cwd ++ relA) <;> cases ex2 (cwd ++ relB) <;>
    simp [walkLoop_congr ex1 ex2 h]

lemma wExists_congr_notIndex (w w' : World) (extra : List Path)
    (hfs : w'.fs = extra ++ w.fs)
    (hextra : ∀ q ∈ extra, lastComp q ≠ some "index.js") :
    ∀ p, lastComp p = some "index.js" → wExists w' p = wExists w p := by
  intro p hp
  have hnot : p ∉ extra := fun hmem => hextra p hmem hp
  simp [wExists, hfs, List.mem_append, hnot]

lemma managerAvailable_any_false (w : World)
    (h1 : w.pnpmAvailable = false) (h2 : w.yarnAvailable = false)
    (h3 : w.npmAvailable = false) (pm : String) :
    managerAvailable w pm = false := by
  unfold managerAvailable
  split
  · exact h1
  · split
    · exact h2
    · split
      · exact h3
      · rfl

lemma install_dependencies_execFields (w : World) (cd : Path) :
    (install_dependencies w cd).2.cwd = w.cwd ∧
    (install_dependencies w cd).2.cacheBase = w.cacheBase ∧
    (install_dependencies w cd).2.netCalls = w.netCalls ∧
    (install_dependencies w cd).2.nodeSpawnOk = w.nodeSpawnOk ∧
    (install_dependencies w cd).2.childStatus = w.childStatus := by
  unfold install_dependencies
  by_cases h1 : (!wExists w (cd ++ ["package.json"])) = true
  · simp [h1]
  · rw [if_neg h1]
    try simp only []
    by_cases h2 : managerAvailable w
        (detect_package_manager (wExists w) w.pnpmAvailable w.yarnAvailable cd) = true
    · rw [if_pos h2]
      by_cases h3 : w.installSucceeds = true
      · rw [if_pos h3]
        exact ⟨rfl, rfl, rfl, rfl, rfl⟩
      · rw [if_neg h3]
        exact ⟨rfl, rfl, rfl, rfl, rfl⟩
    · rw [if_neg h2]
      exact ⟨rfl, rfl, rfl, rfl, rfl⟩

lemma download_finish_execFields (wMid : World) (cd temp : Path) :
    ((match install_dependencies wMid cd with
      | (true, w6) => ((true : Bool), {w6 with fs := removeSubtree w6.fs temp})
      | (false, w6) => ((false : Bool), w6)) : Bool × World).2.cwd = wMid.cwd ∧
    ((match install_dependencies wMid cd with
      | (true, w6) => ((true : Bool), {w6 with fs := removeSubtree w6.fs temp})
      | (false, w6) => ((false : Bool), w6)) : Bool × World).2.cacheBase = wMid.cacheBase ∧
    ((match install_dependencies wMid cd with
      | (true, w6) => ((true : Bool), {w6 with fs := removeSubtree w6.fs temp})
      | (false, w6) => ((false : Bool), w6)) : Bool × World).2.nodeSpawnOk = wMid.nodeSpawnOk ∧
    ((match install_dependencies wMid cd with
      | (true, w6) => ((true : Bool), {w6 with fs := removeSubtree w6.fs temp})
      | (false, w6) => ((false : Bool), w6)) : Bool × World).2.childStatus = wMid.childStatus := by
  have hf := install_dependencies_execFields wMid cd
  cases h : install_dependencies wMid cd with
  | mk ok w6 =>
    rw [h] at hf
    cases ok <;> exact ⟨hf.1, hf.2.1, hf.2.2.2.1, hf.2.2.2.2⟩

lemma download_cli_execFields (w : World) (cd : Path) :
    (download_cli w cd).2.cwd = w.cwd ∧
    (download_cli w cd).2.cacheBase = w.cacheBase ∧
    (download_cli w cd).2.nodeSpawnOk = w.nodeSpawnOk ∧
    (download_cli w cd).2.childStatus = w.childStatus := by
  unfold download_cli
  by_cases h1 : (!w.netReleaseOk) = true
  · simp [h1]
  · rw [if_neg h1]
    by_cases h2 : (!w.tarballUrlPresent) = true
    · rw [if_pos h2]
      exact ⟨rfl, rfl, rfl, rfl⟩
    · rw [if_neg h2]
      try simp only []
      by_cases h3 : (!w.netTarballOk) = true
      · rw [if_pos h3]
        exact ⟨rfl, rfl, rfl, rfl⟩
      · rw [if_neg h3]
        try simp only []
        by_cases h4 : (!w.unpackOk) = true
        · rw [if_pos h4]
          exact ⟨rfl, rfl, rfl, rfl⟩
        · rw [if_neg h4]
          cases htop : w.archiveTop with
          | none => exact ⟨rfl, rfl, rfl, rfl⟩
          | some top =>
            refine ⟨?_, ?_, ?_, ?_⟩
            · exact (download_finish_execFields _ cd _).1
            · exact (download_finish_execFields _ cd _).2.1
            · exact (download_finish_execFields _ cd _).2.2.1
            · exact (download_finish_execFields _ cd _).2.2.2

lemma ensure_cached_tail_execFields (wMid : World) (cp : Path) (cd : Path) :
    ((match install_dependencies wMid cd with
      | (true, w2) => (some cp, {w2 with log := w2.log ++ [Msg.readyToUse]})
      | (false, w2) => (some cp, {w2 with log := w2.log ++ [Msg.autoInstallFailed]})) :
        Option Path × World).2.cwd = wMid.cwd ∧
    ((match install_dependencies wMid cd with
      | (true, w2) => (some cp, {w2 with log := w2.log ++ [Msg.readyToUse]})
      | (false, w2) => (some cp, {w2 with log := w2.log ++ [Msg.autoInstallFailed]})) :
        Option Path × World).2.cacheBase = wMid.cacheBase ∧
    ((match install_dependencies wMid cd with
      | (true, w2) => (some cp, {w2 with log := w2.log ++ [Msg.readyToUse]})
      | (false, w2) => (some cp, {w2 with log := w2.log ++ [Msg.autoInstallFailed]})) :
        Option Path × World).2.nodeSpawnOk = wMid.nodeSpawnOk ∧
    ((match install_dependencies wMid cd with
      | (true, w2) => (some cp, {w2 with log := w2.log ++ [Msg.readyToUse]})
      | (false, w2) => (some cp, {w2 with log := w2.log ++ [Msg.autoInstallFailed]})) :
        Option Path × World).2.childStatus = wMid.childStatus := by
  have hf := install_dependencies_execFields wMid cd
  cases h : install_dependencies wMid cd with
  | mk ok w2 =>
    rw [h] at hf
    cases ok <;> exact ⟨hf.1, hf.2.1, hf.2.2.2.1, hf.2.2.2.2⟩

lemma ensure_download_tail_execFields (wMid : World) (cp : Path) (cd : Path) :
    ((match download_cli wMid cd with
      | (false, w2) => ((none : Option Path), w2)
      | (true, w2) =>
        if wExists w2 cp then (some cp, {w2 with log := w2.log ++ [Msg.downloadedOk]})
        else (none, w2)) : Option Path × World).2.cwd = wMid.cwd ∧
    ((match download_cli wMid cd with
      | (false, w2) => ((none : Option Path), w2)
      | (true, w2) =>
        if wExists w2 cp then (some cp, {w2 with log := w2.log ++ [Msg.downloadedOk]})
        else (none, w2)) : Option Path × World).2.cacheBase = wMid.cacheBase ∧
    ((match download_cli wMid cd with
      | (false, w2) => ((none : Option Path), w2)
      | (true, w2) =>
        if wExists w2 cp then (some cp, {w2 with log := w2.log ++ [Msg.downloadedOk]})
        else (none, w2)) : Option Path × World).2.nodeSpawnOk = wMid.nodeSpawnOk ∧
    ((match download_cli wMid cd with
      | (false, w2) => ((none : Option Path), w2)
      | (true, w2) =>
        if wExists w2 cp then (some cp, {w2 with log := w2.log ++ [Msg.downloadedOk]})
        else (none, w2)) : Option Path × World).2.childStatus = wMid.childStatus := by
  have hf := download_cli_execFields wMid cd
  cases h : download_cli wMid cd with
  | mk ok w2 =>
    rw [h] at hf
    cases ok
    · exact hf
    · by_cases he : wExists w2 cp = true
      · simpa [he] using hf
      · simpa [he] using hf

lemma ensure_cli_available_execFields (w : World) :
    (ensure_cli_available w).2.cwd = w.cwd ∧
    (ensure_cli_available w).2.cacheBase = w.cacheBase ∧
    (ensure_cli_available w).2.nodeSpawnOk = w.nodeSpawnOk ∧
    (ensure_cli_available w).2.childStatus = w.childStatus := by
  unfold ensure_cli_available
  cases hloc : check_local_installation (wExists w) w.cwd with
  | some p => exact ⟨rfl, rfl, rfl, rfl⟩
  | none =>
    try simp only []
    by_cases hroot : wExists w (cacheDirOf w) = true
    · rw [if_pos hroot]
      by_cases hentry : wExists w (cliEntry (cacheDirOf w)) = true
      · rw [if_pos hentry]
        by_cases hdeps : (!dependencies_installed w (cacheDirOf w)) = true
        · rw [if_pos hdeps]
          exact ⟨(ensure_cached_tail_execFields _ _ _).1,
            (ensure_cached_tail_execFields _ _ _).2.1,
            (ensure_cached_tail_execFields _ _ _).2.2.1,
            (ensure_cached_tail_execFields _ _ _).2.2.2⟩
        · rw [if_neg hdeps]
          exact ⟨rfl, rfl, rfl, rfl⟩
      · rw [if_neg hentry]
        exact ⟨(ensure_download_tail_execFields _ _ _).1,
          (ensure_download_tail_execFields _ _ _).2.1,
          (ensure_download_tail_execFields _ _ _).2.2.1,
          (ensure_download_tail_execFields _ _ _).2.2.2⟩
    · rw [if_neg hroot]
      by_cases hentry : wExists {w with fs := cacheDirOf w :: w.fs} (cliEntry (cacheDirOf w)) = true
      · rw [if_pos hentry]
        by_cases hdeps :
            (!dependencies_installed {w with fs := cacheDirOf w :: w.fs} (cacheDirOf w)) = true
        · rw [if_pos hdeps]
          exact ⟨(ensure_cached_tail_execFields _ _ _).1,
            (ensure_cached_tail_execFields _ _ _).2.1,
            (ensure_cached_tail_execFields _ _ _).2.2.1,
            (ensure_cached_tail_execFields _ _ _).2.2.2⟩
        · rw [if_neg hdeps]
          exact ⟨rfl, rfl, rfl, rfl⟩
      · rw [if_neg hentry]
        exact ⟨(ensure_download_tail_execFields _ _ _).1,
          (ensure_download_tail_execFields _ _ _).2.1,
          (ensure_download_tail_execFields _ _ _).2.2.1,
          (ensure_download_tail_execFields _ _ _).2.2.2⟩


lemma ensure_cached_spec (w : World)
    (hLocal : check_local_installation (wExists w) w.cwd = none)
    (hRoot : wExists w (cacheDirOf w) = true)
    (hEntry : wExists w (cliEntry (cacheDirOf w)) = true) :
    (ensure_cli_available w).1 = some (cliEntry (cacheDirOf w)) ∧
    (ensure_cli_available w).2.netCalls = w.netCalls ∧
    ((ensure_cli_available w).2.fs = w.fs ∨
      (ensure_cli_available w).2.fs = (cacheDirOf w ++ ["node_modules"]) :: w.fs) := by
  unfold ensure_cli_available
  rw [hLocal]
  try simp only []
  rw [if_pos hRoot, if_pos hEntry]
  by_cases hdeps : (!dependencies_installed w (cacheDirOf w)) = true
  · rw [if_pos hdeps]
    unfold install_dependencies
    by_cases h1 : (!wExists w (cacheDirOf w ++ ["package.json"])) = true
    · rw [if_pos h1]
      exact ⟨rfl, rfl, Or.inl rfl⟩
    · rw [if_neg h1]
      try simp only []
      by_cases h2 : managerAvailable w (detect_package_manager (wExists w)
          w.pnpmAvailable w.yarnAvailable (cacheDirOf w)) = true
      · rw [if_pos h2]
        by_cases h3 : w.installSucceeds = true
        · rw [if_pos h3]
          exact ⟨rfl, rfl, Or.inr rfl⟩
        · rw [if_neg h3]
          exact ⟨rfl, rfl, Or.inl rfl⟩
      · rw [if_neg h2]
        exact ⟨rfl, rfl, Or.inl rfl⟩
  · rw [if_neg hdeps]
    exact ⟨rfl, rfl, Or.inl rfl⟩



lemma wExists_fs_eq {w w' : World} (hfs : w'.fs = w.fs) (p : Path) :
    wExists w' p = wExists w p := by
  simp [wExists, hfs]

lemma wExists_fs_cons {w w' : World} {q : Path} (hfs : w'.fs = q :: w.fs) {p : Path}
    (hp : wExists w p = true) : wExists w' p = true := by
  simp only [wExists, hfs, List.mem_cons, decide_eq_true_eq]
  simp only [wExists, decide_eq_true_eq] at hp
  exact Or.inr hp

lemma lastComp_node_modules (d : Path) : lastComp (d ++ ["node_modules"]) = some "node_modules" := by
  rw [show (["node_modules"] : Path) = "node_modules" :: [] from rfl, lastComp_append]
  rfl

/-- Claim C3 (confirmed): resolution is idempotent on a populated cache.  If
no local installation is present and the cache entry point `dist/index.js`
already exists under the cache root, then `ensure_cli_available` returns the
cache entry-point path, calling it again on the resulting state returns the
same path, and neither call issues any network request (`netCalls` counts the
`client.get` requests of `download_cli`, the only network activity in the
program). -/
theorem resolve_idempotent_on_populated_cache (w : World)
    (hLocal : check_local_installation (wExists w) w.cwd = none)
    (hRoot : wExists w (cacheDirOf w) = true)
    (hEntry : wExists w (cliEntry (cacheDirOf w)) = true) :
    (ensure_cli_available w).1 = some (cliEntry (cacheDirOf w)) ∧
    (ensure_cli_available (ensure_cli_available w).2).1 = (ensure_cli_available w).1 ∧
    (ensure_cli_available w).2.netCalls = w.netCalls ∧
    (ensure_cli_available (ensure_cli_available w).2).2.netCalls = w.netCalls := by
  obtain ⟨h1, hnet1, hfs⟩ := ensure_cached_spec w hLocal hRoot hEntry
  obtain ⟨hcwd, hbase, _, _⟩ := ensure_cli_available_execFields w
  have hcd : cacheDirOf (ensure_cli_available w).2 = cacheDirOf w := by
    simp [cacheDirOf, hbase]
  have hRoot1 : wExists (ensure_cli_available w).2 (cacheDirOf (ensure_cli_available w).2) = true := by
    rw [hcd]
    rcases hfs with hl | hr
    · rw [wExists_fs_eq hl]
      exact hRoot
    · exact wExists_fs_cons hr hRoot
  have hEntry1 : wExists (ensure_cli_available w).2 (cliEntry (cacheDirOf (ensure_cli_available w).2)) = true := by
    rw [hcd]
    rcases hfs with hl | hr
    · rw [wExists_fs_eq hl]
      exact hEntry
    · exact wExists_fs_cons hr hEntry
  have hLocal1 : check_local_installation (wExists (ensure_cli_available w).2)
      (ensure_cli_available w).2.cwd = none := by
    rw [hcwd]
    rcases hfs with hl | hr
    · rw [check_local_congr (wExists (ensure_cli_available w).2) (wExists w)
        (fun p _ => wExists_fs_eq hl p) w.cwd]
      exact hLocal
    · rw [check_local_congr (wExists (ensure_cli_available w).2) (wExists w)
        (wExists_congr_notIndex w (ensure_cli_available w).2 [cacheDirOf w ++ ["node_modules"]]
          (by simpa using hr)
          (by
            intro q hq
            simp at hq
            rw [hq, lastComp_node_modules]
            simp)) w.cwd]
      exact hLocal
  obtain ⟨h2, hnet2, _⟩ := ensure_cached_spec (ensure_cli_available w).2 hLocal1 hRoot1 hEntry1
  refine ⟨h1, ?_, hnet1, ?_⟩
  · rw [h2, hcd, h1]
  · rw [hnet2, hnet1]



/-- Claim C1 (corrected): when every resolution strategy fails
(`ensure_cli_available` returns an error), `main` does not print remediation
guidance and exit 1 as the claim states; its `.expect("Failed to download or
find CLI")` panics, so the process terminates through the Rust panic path
with exit status 101 — non-zero, but not 1, and with a panic message rather
than a remediation menu. -/
theorem resolver_notfound_panics (w : World) (name : String) (rest : List String)
    (hRun : should_run_cli name rest = true)
    (hNone : (ensure_cli_available w).1 = none) :
    (run_main w name rest).1 = Outcome.panicked ∧
    exitCode (run_main w name rest).1 = 101 := by
  unfold run_main
  rw [if_pos hRun]
  try simp only []
  rw [hNone]
  exact ⟨rfl, rfl⟩

/-- Claim C7 (confirmed): when delegation happens and the `node` child runs to
completion, `main` exits with `status.code().unwrap_or(1)`: a child exit code
in 0–255 is forwarded exactly, and a missing exit code (termination by
signal, `status.code() = None`) is reported as exit code 1. -/
theorem delegate_exit_code_forwarding (w : World) (name : String) (rest : List String) (p : Path)
    (hRun : should_run_cli name rest = true)
    (hRes : (ensure_cli_available w).1 = some p)
    (hSpawn : w.nodeSpawnOk = true) :
    (∀ c : Nat, w.childStatus = some c → c < 256 →
      exitCode (run_main w name rest).1 = c) ∧
    (w.childStatus = none → exitCode (run_main w name rest).1 = 1) := by
  obtain ⟨_, _, hs, hc⟩ := ensure_cli_available_execFields w
  unfold run_main
  rw [if_pos hRun]
  try simp only []
  rw [hRes]
  try simp only []
  rw [hs, hSpawn]
  try simp only [if_true]
  rw [hc]
  constructor
  · intro c hcs hlt
    rw [hcs]
    simp [exitCode, Nat.mod_eq_of_lt hlt]
  · intro hcs
    rw [hcs]
    simp [exitCode]

/-- Claim C9 (confirmed): delegation triggering uses substring containment on
argv[0], not exact alias equality — any invocation name containing `"pi"`
(such as `"pip"` or `"spinner"`) enters the delegation path regardless of the
first argument, so `main` never takes the usage-hint branch. -/
theorem name_substring_triggers_delegation (name : String) (rest : List String)
    (h : strContains name "pi" = true) :
    should_run_cli name rest = true ∧
    ∀ w : World, (run_main w name rest).1 ≠ Outcome.usage := by
  have hrun : should_run_cli name rest = true := by
    unfold should_run_cli
    rw [h]
    simp
  refine ⟨hrun, ?_⟩
  intro w
  unfold run_main
  rw [if_pos hrun]
  try simp only []
  cases hres : (ensure_cli_available w).1 with
  | none => simp
  | some p =>
    by_cases hs : (ensure_cli_available w).2.nodeSpawnOk = true
    · simp [hs]
    · simp [hs]

/-- Claim C10 (confirmed): when both trigger forms match — argv[0] contains
`"pi"` and the first argument is also the literal `"pi"` — the name form takes
precedence: only argv[0] is stripped (`skip(1)`), so the literal token `"pi"`
is forwarded as the first argument of the delegated tool. -/
theorem name_form_takes_precedence (name : String) (rest : List String)
    (h : strContains name "pi" = true) :
    should_run_cli name ("pi" :: rest) = true ∧
    cli_args name ("pi" :: rest) = "pi" :: rest := by
  constructor
  · unfold should_run_cli
    rw [h]
    simp
  · unfold cli_args
    rw [if_pos h]

/-- Claim C8 (confirmed): package-manager detection is a pure function of the
cache root's lockfile evidence and manager availability, in fixed priority
order: `"pnpm"` if `pnpm-lock.yaml` exists and pnpm answers a version query;
otherwise `"yarn"` if `yarn.lock` exists and yarn answers one; otherwise
`"npm"` — the default, which is returned without any availability probe
(the function takes no npm-availability input at all). -/
theorem detect_manager_priority (ex : Path → Bool) (pnpmOk yarnOk : Bool) (cd : Path) :
    (ex (cd ++ ["pnpm-lock.yaml"]) = true → pnpmOk = true →
      detect_package_manager ex pnpmOk yarnOk cd = "pnpm") ∧
    ((ex (cd ++ ["pnpm-lock.yaml"]) && pnpmOk) = false → ex (cd ++ ["yarn.lock"]) = true →
      yarnOk = true → detect_package_manager ex pnpmOk yarnOk cd = "yarn") ∧
    ((ex (cd ++ ["pnpm-lock.yaml"]) && pnpmOk) = false →
      (ex (cd ++ ["yarn.lock"]) && yarnOk) = false →
      detect_package_manager ex pnpmOk yarnOk cd = "npm") := by
  unfold detect_package_manager
  refine ⟨?_, ?_, ?_⟩
  · intro h1 h2
    simp [h1, h2]
  · intro h1 h2 h3
    simp [h1, h2, h3]
  · intro h1 h2
    simp [h1, h2]



/-- Claim C4 (corrected): the launcher has no bundled-artifact strategy at
all.  Even when a native executable exists at `bundle/executables/<name>`
relative to the launcher (or anywhere else), a run with no local install, no
cache entry and failing provisioning never spawns it: resolution fails, the
`.expect` panics, and the process exits 101; no `ranChild` outcome occurs. -/
theorem bundled_executable_not_consulted (w : World) (name : String) (rest : List String)
    (exeDir : Path) (exeName : String)
    (hRun : should_run_cli name rest = true)
    (_hBundle : wExists w (exeDir ++ ["bundle", "executables", exeName]) = true)
    (hNone : (ensure_cli_available w).1 = none) :
    (run_main w name rest).1 = Outcome.panicked ∧
    exitCode (run_main w name rest).1 = 101 ∧
    ∀ (p : Path) (a : List String) (c : Nat),
      (run_main w name rest).1 ≠ Outcome.ranChild p a c := by
  unfold run_main
  rw [if_pos hRun]
  try simp only []
  rw [hNone]
  exact ⟨rfl, rfl, fun p a c => by simp⟩

def baseWorld : World where
  fs := []
  cwd := ["home", "proj"]
  cacheBase := ["home", "cache"]
  netCalls := 0
  netReleaseOk := true
  tarballUrlPresent := true
  netTarballOk := true
  unpackOk := true
  archiveTop := some "repo-abc123"
  archiveFiles := [["package.json"], ["dist", "index.js"]]
  pnpmAvailable := false
  yarnAvailable := false
  npmAvailable := true
  installSucceeds := true
  nodeSpawnOk := true
  childStatus := some 0
  log := []

def cacheRoot : Path := ["home", "cache", ".package-installer-cli"]

def wC1 : World := {baseWorld with netReleaseOk := false}

theorem resolver_notfound_panics_witness :
    (run_main wC1 "pi" ["create"]).1 = Outcome.panicked ∧
    exitCode (run_main wC1 "pi" ["create"]).1 = 101 :=
  resolver_notfound_panics wC1 "pi" ["create"] (by decide) (by decide)

theorem resolver_notfound_exit_one_counterexample :
    exitCode (run_main wC1 "pi" ["create"]).1 = 101 ∧
    exitCode (run_main wC1 "pi" ["create"]).1 ≠ 1 :=
  ⟨by decide, by decide⟩

def wC4 : World :=
  {baseWorld with
    netReleaseOk := false
    fs := [["opt", "launcher", "bundle", "executables", "package-installer-linux"]]}

theorem bundled_executable_not_consulted_witness :
    (run_main wC4 "pi" []).1 = Outcome.panicked ∧
    exitCode (run_main wC4 "pi" []).1 = 101 :=
  ⟨(bundled_executable_not_consulted wC4 "pi" [] ["opt", "launcher"] "package-installer-linux"
      (by decide) (by decide) (by decide)).1,
   (bundled_executable_not_consulted wC4 "pi" [] ["opt", "launcher"] "package-installer-linux"
      (by decide) (by decide) (by decide)).2.1⟩

theorem bundled_executable_ignored_counterexample :
    wExists wC4 (["opt", "launcher"] ++ ["bundle", "executables", "package-installer-linux"]) = true ∧
    (run_main wC4 "pi" []).1 = Outcome.panicked ∧
    exitCode (run_main wC4 "pi" []).1 = 101 :=
  ⟨by decide, by decide, by decide⟩

def wC3 : World := {baseWorld with fs := [cacheRoot, cacheRoot ++ ["dist", "index.js"]]}

theorem resolve_idempotent_witness :
    (ensure_cli_available wC3).1 = some (cliEntry (cacheDirOf wC3)) ∧
    (ensure_cli_available (ensure_cli_available wC3).2).1 = (ensure_cli_available wC3).1 ∧
    (ensure_cli_available wC3).2.netCalls = wC3.netCalls ∧
    (ensure_cli_available (ensure_cli_available wC3).2).2.netCalls = wC3.netCalls :=
  resolve_idempotent_on_populated_cache wC3 (by decide) (by decide) (by decide)

def wC7 : World := {baseWorld with fs := [["home", "proj"] ++ relA], childStatus := some 7}

theorem delegate_exit_code_forwarding_witness :
    exitCode (run_main wC7 "pi" ["create"]).1 = 7 :=
  (delegate_exit_code_forwarding wC7 "pi" ["create"] (["home", "proj"] ++ relA)
    (by decide) (by decide) (by decide)).1 7 (by decide) (by decide)

theorem name_substring_triggers_delegation_witness :
    strContains "spinner" "pi" = true ∧ should_run_cli "spinner" ["install", "x"] = true :=
  ⟨by decide, (name_substring_triggers_delegation "spinner" ["install", "x"] (by decide)).1⟩

theorem name_form_takes_precedence_witness :
    should_run_cli "pi" ("pi" :: ["create", "app"]) = true ∧
    cli_args "pi" ("pi" :: ["create", "app"]) = "pi" :: ["create", "app"] :=
  name_form_takes_precedence "pi" ["create", "app"] (by decide)

def exC8 : Path → Bool := fun p => p == ["cacheroot", "pnpm-lock.yaml"]

theorem detect_manager_priority_witness :
    detect_package_manager exC8 true true ["cacheroot"] = "pnpm" :=
  (detect_manager_priority exC8 true true ["cacheroot"]).1 (by decide) rfl

def exC2 : Path → Bool := fun p => p == ("lvl0" :: relA)

/-- Claim C2 (code bug): the source's comment says the parent walk checks "up
to 5 levels", but the `for _ in 0..5` loop re-checks the working directory in
its first iteration, so only 4 parent levels are ever searched.  Concretely:
with a valid installation under `/lvl0`, a working directory 4 levels below
`/lvl0` finds it, while working directories 5 and 6 levels below do not —
the claim expects the depth-5 case to succeed. -/
theorem local_walk_misses_depth_five :
    exC2 ("lvl0" :: relA) = true ∧
    check_local_installation exC2 ["lvl0", "d1", "d2", "d3", "d4"] = some ("lvl0" :: relA) ∧
    check_local_installation exC2 ["lvl0", "d1", "d2", "d3", "d4", "d5"] = none ∧
    check_local_installation exC2 ["lvl0", "d1", "d2", "d3", "d4", "d5", "d6"] = none :=
  ⟨by decide, by decide, by decide, by decide⟩



lemma removeSubtree_not_mem (fs : List Path) (r p : Path) (hp : leadsWith r p = true) :
    p ∉ removeSubtree fs r := by
  intro hmem
  rw [removeSubtree, List.mem_filter] at hmem
  simp [hp] at hmem

lemma install_fail_on_world (wMid : World) (cd : Path)
    (hpkg : wExists wMid (cd ++ ["package.json"]) = true)
    (hpn : wMid.pnpmAvailable = false) (hyn : wMid.yarnAvailable = false)
    (hnp : wMid.npmAvailable = false) :
    install_dependencies wMid cd =
      (false, {wMid with
        log := wMid.log ++ [Msg.installingDeps, Msg.installFailed, Msg.manualInstructions]}) := by
  unfold install_dependencies
  rw [if_neg (by simp [hpkg])]
  try simp only []
  rw [if_neg (by simp [managerAvailable_any_false wMid hpn hyn hnp])]

lemma download_finish_temp (wMid : World) (cd temp0 : Path)
    (h : ((match install_dependencies wMid cd with
      | (true, w6) => ((true : Bool), {w6 with fs := removeSubtree w6.fs temp0})
      | (false, w6) => ((false : Bool), w6)) : Bool × World).1 = true) :
    ∀ p, leadsWith temp0 p = true →
      wExists ((match install_dependencies wMid cd with
        | (true, w6) => ((true : Bool), {w6 with fs := removeSubtree w6.fs temp0})
        | (false, w6) => ((false : Bool), w6)) : Bool × World).2 p = false := by
  cases hi : install_dependencies wMid cd with
  | mk ok w6 =>
    rw [hi] at h
    cases ok
    · simp at h
    · intro p hp
      simp only [wExists, decide_eq_false_iff_not]
      exact removeSubtree_not_mem _ _ _ hp

lemma download_finish_fail (wMid : World) (cd temp0 : Path)
    (hpkg : wExists wMid (cd ++ ["package.json"]) = true)
    (hpn : wMid.pnpmAvailable = false) (hyn : wMid.yarnAvailable = false)
    (hnp : wMid.npmAvailable = false)
    (htemp : wExists wMid temp0 = true) :
    ((match install_dependencies wMid cd with
      | (true, w6) => ((true : Bool), {w6 with fs := removeSubtree w6.fs temp0})
      | (false, w6) => ((false : Bool), w6)) : Bool × World).1 = false ∧
    wExists ((match install_dependencies wMid cd with
      | (true, w6) => ((true : Bool), {w6 with fs := removeSubtree w6.fs temp0})
      | (false, w6) => ((false : Bool), w6)) : Bool × World).2 temp0 = true ∧
    Msg.manualInstructions ∈ ((match install_dependencies wMid cd with
      | (true, w6) => ((true : Bool), {w6 with fs := removeSubtree w6.fs temp0})
      | (false, w6) => ((false : Bool), w6)) : Bool × World).2.log := by
  rw [install_fail_on_world wMid cd hpkg hpn hyn hnp]
  refine ⟨rfl, ?_, ?_⟩
  · simpa [wExists] using htemp
  · simp

lemma download_install_fail (w : World) (cd : Path) (top : String)
    (hrel : w.netReleaseOk = true) (hurl : w.tarballUrlPresent = true)
    (htar : w.netTarballOk = true) (hunp : w.unpackOk = true)
    (htop : w.archiveTop = some top)
    (hPkg : ["package.json"] ∈ w.archiveFiles)
    (hpn : w.pnpmAvailable = false) (hyn : w.yarnAvailable = false)
    (hnp : w.npmAvailable = false) :
    (download_cli w cd).1 = false ∧
    wExists (download_cli w cd).2 (cd ++ ["temp"]) = true ∧
    Msg.manualInstructions ∈ (download_cli w cd).2.log := by
  unfold download_cli
  rw [if_neg (by simp [hrel])]
  rw [if_neg (by simp [hurl])]
  try simp only []
  rw [if_neg (by simp [htar])]
  try simp only []
  rw [if_neg (by simp [hunp])]
  rw [htop]
  try simp only []
  exact download_finish_fail _ cd _
    (by
      simp only [wExists, decide_eq_true_eq, List.mem_append, List.mem_map]
      exact Or.inl ⟨["package.json"], hPkg, rfl⟩)
    (by simpa using hpn) (by simpa using hyn) (by simpa using hnp)
    (by
      simp only [wExists, decide_eq_true_eq, List.mem_append, List.mem_cons]
      tauto)



/-- Claim C5 (corrected): the `temp/` extraction directory is deleted after
every run of `download_cli` that returns success — nothing at or below
`<cache>/temp` remains.  But the deletion is not unconditional: dependency
installation runs before the cleanup line and its failure propagates through
`?`, so when the install step fails during provisioning, `download_cli`
returns early and `temp/` persists under the cache root. -/
theorem temp_dir_removed_on_success_persists_on_install_failure :
    (∀ (w : World) (cd : Path), (download_cli w cd).1 = true →
      ∀ p : Path, leadsWith (cd ++ ["temp"]) p = true →
        wExists (download_cli w cd).2 p = false) ∧
    (∀ (w : World) (cd : Path) (top : String),
      w.netReleaseOk = true → w.tarballUrlPresent = true → w.netTarballOk = true →
      w.unpackOk = true → w.archiveTop = some top → ["package.json"] ∈ w.archiveFiles →
      w.pnpmAvailable = false → w.yarnAvailable = false → w.npmAvailable = false →
      (download_cli w cd).1 = false ∧
      wExists (download_cli w cd).2 (cd ++ ["temp"]) = true) := by
  constructor
  · intro w cd hsucc p hp
    unfold download_cli at hsucc ⊢
    by_cases h1 : (!w.netReleaseOk) = true
    · rw [if_pos h1] at hsucc
      simp at hsucc
    · rw [if_neg h1] at hsucc ⊢
      by_cases h2 : (!w.tarballUrlPresent) = true
      · rw [if_pos h2] at hsucc
        simp at hsucc
      · rw [if_neg h2] at hsucc ⊢
        try simp only [] at hsucc ⊢
        by_cases h3 : (!w.netTarballOk) = true
        · rw [if_pos h3] at hsucc
          simp at hsucc
        · rw [if_neg h3] at hsucc ⊢
          try simp only [] at hsucc ⊢
          by_cases h4 : (!w.unpackOk) = true
          · rw [if_pos h4] at hsucc
            simp at hsucc
          · rw [if_neg h4] at hsucc ⊢
            cases htop : w.archiveTop with
            | none =>
              rw [htop] at hsucc
              simp at hsucc
            | some top =>
              rw [htop] at hsucc
              exact download_finish_temp _ cd _ hsucc p hp
  · intro w cd top h1 h2 h3 h4 h5 h6 h7 h8 h9
    obtain ⟨ha, hb, _⟩ := download_install_fail w cd top h1 h2 h3 h4 h5 h6 h7 h8 h9
    exact ⟨ha, hb⟩

/-- Claim C6 (corrected): a dependency-installation failure is non-fatal only
on the cached path.  When the cache entry point already exists, the failure is
caught: manual-remediation instructions are printed and the entry-point path
is still returned.  During fresh provisioning the same failure propagates
through `?` in `download_cli`, so resolution yields no candidate — although
the manual instructions are printed there too. -/
theorem dependency_install_failure_nonfatal_only_when_cached :
    (∀ w : World,
      check_local_installation (wExists w) w.cwd = none →
      wExists w (cacheDirOf w) = true →
      wExists w (cliEntry (cacheDirOf w)) = true →
      dependencies_installed w (cacheDirOf w) = false →
      wExists w (cacheDirOf w ++ ["package.json"]) = true →
      (managerAvailable w (detect_package_manager (wExists w) w.pnpmAvailable
          w.yarnAvailable (cacheDirOf w)) = false ∨ w.installSucceeds = false) →
      (ensure_cli_available w).1 = some (cliEntry (cacheDirOf w)) ∧
      Msg.manualInstructions ∈ (ensure_cli_available w).2.log) ∧
    (∀ (w : World) (top : String),
      check_local_installation (wExists w) w.cwd = none →
      wExists w (cacheDirOf w) = true →
      wExists w (cliEntry (cacheDirOf w)) = false →
      w.netReleaseOk = true → w.tarballUrlPresent = true → w.netTarballOk = true →
      w.unpackOk = true → w.archiveTop = some top → ["package.json"] ∈ w.archiveFiles →
      w.pnpmAvailable = false → w.yarnAvailable = false → w.npmAvailable = false →
      (ensure_cli_available w).1 = none ∧
      Msg.manualInstructions ∈ (ensure_cli_available w).2.log) := by
  constructor
  · intro w hLocal hRoot hEntry hdeps hpkg hfail
    unfold ensure_cli_available
    rw [hLocal]
    try simp only []
    rw [if_pos hRoot, if_pos hEntry]
    rw [if_pos (show (!dependencies_installed w (cacheDirOf w)) = true from by simp [hdeps])]
    unfold install_dependencies
    rw [if_neg (by simp [hpkg])]
    try simp only []
    rcases hfail with hm | hi
    · rw [if_neg (by simp [hm])]
      exact ⟨rfl, by simp⟩
    · by_cases hm : managerAvailable w (detect_package_manager (wExists w) w.pnpmAvailable
          w.yarnAvailable (cacheDirOf w)) = true
      · rw [if_pos hm, if_neg (by simp [hi])]
        exact ⟨rfl, by simp⟩
      · rw [if_neg hm]
        exact ⟨rfl, by simp⟩
  · intro w top hLocal hRoot hEntry h1 h2 h3 h4 h5 h6 h7 h8 h9
    obtain ⟨hf1, _, hf3⟩ :=
      download_install_fail w (cacheDirOf w) top h1 h2 h3 h4 h5 h6 h7 h8 h9
    unfold ensure_cli_available
    rw [hLocal]
    try simp only []
    rw [if_pos hRoot]
    rw [if_neg (by simp [hEntry])]
    cases hdl : download_cli w (cacheDirOf w) with
    | mk ok w2 =>
      rw [hdl] at hf1 hf3
      cases ok
      · exact ⟨rfl, by simpa using hf3⟩
      · simp at hf1

def wC5ok : World := {baseWorld with fs := [cacheRoot]}

def wC5bad : World :=
  {baseWorld with
    fs := [cacheRoot]
    npmAvailable := false}

theorem temp_dir_cleanup_witness :
    wExists (download_cli wC5ok cacheRoot).2 (cacheRoot ++ ["temp"]) = false ∧
    (download_cli wC5bad cacheRoot).1 = false ∧
    wExists (download_cli wC5bad cacheRoot).2 (cacheRoot ++ ["temp"]) = true :=
  ⟨temp_dir_removed_on_success_persists_on_install_failure.1 wC5ok cacheRoot (by decide)
      (cacheRoot ++ ["temp"]) (by decide),
   (temp_dir_removed_on_success_persists_on_install_failure.2 wC5bad cacheRoot "repo-abc123"
      (by decide) (by decide) (by decide) (by decide) (by decide) (by decide)
      (by decide) (by decide) (by decide)).1,
   (temp_dir_removed_on_success_persists_on_install_failure.2 wC5bad cacheRoot "repo-abc123"
      (by decide) (by decide) (by decide) (by decide) (by decide) (by decide)
      (by decide) (by decide) (by decide)).2⟩

def wC5x : World :=
  {baseWorld with
    fs := [cacheRoot]
    installSucceeds := false}

theorem temp_dir_persists_counterexample :
    (download_cli wC5x cacheRoot).1 = false ∧
    wExists (download_cli wC5x cacheRoot).2 (cacheRoot ++ ["temp"]) = true :=
  ⟨by decide, by decide⟩

def wC6a : World :=
  {baseWorld with
    fs := [cacheRoot, cacheRoot ++ ["dist", "index.js"], cacheRoot ++ ["package.json"]]
    installSucceeds := false}

def wC6b : World :=
  {baseWorld with
    fs := [cacheRoot]
    npmAvailable := false}

theorem dependency_install_failure_witness :
    ((ensure_cli_available wC6a).1 = some (cliEntry (cacheDirOf wC6a)) ∧
     Msg.manualInstructions ∈ (ensure_cli_available wC6a).2.log) ∧
    ((ensure_cli_available wC6b).1 = none ∧
     Msg.manualInstructions ∈ (ensure_cli_available wC6b).2.log) :=
  ⟨dependency_install_failure_nonfatal_only_when_cached.1 wC6a (by decide) (by decide)
      (by decide) (by decide) (by decide) (by decide),
   dependency_install_failure_nonfatal_only_when_cached.2 wC6b "repo-abc123" (by decide)
      (by decide) (by decide) (by decide) (by decide) (by decide) (by decide) (by decide)
      (by decide) (by decide) (by decide) (by decide)⟩

def wC6x : World :=
  {baseWorld with
    fs := [cacheRoot]
    installSucceeds := false}

theorem dependency_install_failure_fatal_counterexample :
    Msg.manualInstructions ∈ (ensure_cli_available wC6x).2.log ∧
    (ensure_cli_available wC6x).1 = none :=
  ⟨by decide, by decide⟩


end PkgInstaller
